import Mathlib

/-!
Verification of the Dating-bot single-document record store and its
registration / browsing / like workflow.

The Python repository keeps its whole dataset as one JSON document pinned
in a messaging channel.  The shallow embedding below models:

* the persisted state as an `Option Doc` (the document currently pinned,
  `none` when no pinned message exists); transport calls are assumed to
  succeed, so the only save failure modeled is the size-ceiling rejection,
  exactly as in `save_db` in src/db.py;
* Python dicts as insertion-ordered association lists (`aget`/`aset`/`adel`
  mirror `d[k]`, `d[k] = v`, `del d[k]`);
* `json.dumps(db, ensure_ascii=False, indent=2)` as `dumps` below, so the
  3800-character ceiling check is applied to a faithful serialization;
* the in-memory registration dictionaries `REG_STEP` / `TEMP_BUFFER`, the
  persisted store and the outgoing messages as one `World` record; handlers
  from src/handlers.py become functions `World → World`.  Each call of
  `save_user_record` also appends its boolean result to `World.saveLog`
  (pure instrumentation: the handlers mostly ignore that boolean).
-/

set_option maxRecDepth 10000

/-- Association-list read, mirroring Python `d.get(k)` (dict keys are unique). -/
def aget {κ α : Type} [DecidableEq κ] : List (κ × α) → κ → Option α
  | [], _ => none
  | (k0, v) :: rest, k => if k0 = k then some v else aget rest k

/-- Association-list write, mirroring Python `d[k] = v`: replaces in place,
appends when absent (Python dicts preserve insertion order). -/
def aset {κ α : Type} [DecidableEq κ] : List (κ × α) → κ → α → List (κ × α)
  | [], k, v => [(k, v)]
  | (k0, v0) :: rest, k, v =>
    if k0 = k then (k, v) :: rest else (k0, v0) :: aset rest k v

/-- Association-list delete, mirroring Python `del d[k]`. -/
def adel {κ α : Type} [DecidableEq κ] : List (κ × α) → κ → List (κ × α)
  | [], _ => []
  | (k0, v0) :: rest, k => if k0 = k then rest else (k0, v0) :: adel rest k

/-- Python `str.strip` whitespace test (ASCII part). -/
def isPySpace (c : Char) : Bool :=
  c == ' ' || c == '\t' || c == '\n' || c == '\r' || c == '\x0b' || c == '\x0c'

/-- Python `text.strip()`. -/
def pyStrip (s : String) : String :=
  String.mk (((s.data.dropWhile isPySpace).reverse.dropWhile isPySpace).reverse)

/-- Python `text.startswith("/")`. -/
def startsWithSlash (s : String) : Bool :=
  match s.data with
  | [] => false
  | c :: _ => c == '/'

/-- Python `text.isdigit()` (ASCII digits). -/
def isDigits (s : String) : Bool :=
  !s.data.isEmpty && s.data.all Char.isDigit

/-- Python `int(text)` on a digit string. -/
def strToNat (s : String) : Nat :=
  s.data.foldl (fun n c => n * 10 + (c.toNat - Char.toNat '0')) 0

/-- Python `text.lower()` (ASCII). -/
def pyLower (s : String) : String :=
  String.mk (s.data.map Char.toLower)

/-- One user record, with exactly the keys built by the registration
finalization dict literal in src/handlers.py (fields that may be absent from
the transient buffer are `Option`, matching `TEMP_BUFFER[uid].get(...)`). -/
structure UserRec where
  telegram_id : Int
  photo_file_id : Option String
  name : Option String
  age : Option Int
  gender : Option String
  interest : Option String
  city : Option String
  bio : Option String
  registered : Bool
  vip : Bool
  likes : List String
  liked_by : List String
  «matches» : List String
  current_fake_index : Nat
  current_real_index : Nat
  coins : Int
  created_at : Int
deriving DecidableEq

/-- The `meta` mapping of the document (keys optional; `{}` when all absent). -/
structure MetaInfo where
  created_by : Option Int := none
  created_at : Option Int := none
  last_init_by : Option Int := none
  last_init_at : Option Int := none
deriving DecidableEq

/-- The whole persisted document: `{"users": {...}, "meta": {...}}`. -/
structure Doc where
  users : List (String × UserRec)
  meta : MetaInfo
deriving DecidableEq

def emptyMeta : MetaInfo := {}

/-- `{"users": {}, "meta": {}}`, the fallback returned by `load_db`. -/
def emptyDoc : Doc := ⟨[], emptyMeta⟩

/-- Lower-case hex digit, for JSON control-character escapes. -/
def hexDigit (n : Nat) : Char :=
  if n < 10 then Char.ofNat (Char.toNat '0' + n) else Char.ofNat (Char.toNat 'a' + (n - 10))

/-- JSON string escaping as Python `json.dumps(..., ensure_ascii=False)` does
it: quote, backslash and control characters escaped, everything else kept. -/
def escCharList (c : Char) : List Char :=
  if c = '"' then ['\\', '"']
  else if c = '\\' then ['\\', '\\']
  else if c = '\n' then ['\\', 'n']
  else if c = '\t' then ['\\', 't']
  else if c = '\r' then ['\\', 'r']
  else if c = '\x08' then ['\\', 'b']
  else if c = '\x0c' then ['\\', 'f']
  else if c.toNat < 32 then
    ['\\', 'u', '0', '0', hexDigit (c.toNat / 16), hexDigit (c.toNat % 16)]
  else [c]

/-- A JSON string literal. -/
def jstr (s : String) : String :=
  "\"" ++ String.mk (s.data.map escCharList).flatten ++ "\""

def jint (i : Int) : String := toString i

def jbool : Bool → String
  | true => "true"
  | false => "false"

def jopt {α : Type} (f : α → String) : Option α → String
  | none => "null"
  | some v => f v

/-- `n` spaces. -/
def sp (n : Nat) : String := String.mk (List.replicate n ' ')

/-- A JSON array of strings at nesting level `l` (`indent=2` layout). -/
def jarr (l : Nat) (xs : List String) : String :=
  match xs with
  | [] => "[]"
  | _ =>
    "[\n" ++ String.intercalate ",\n" (xs.map (fun s => sp (2 * (l + 1)) ++ jstr s)) ++
      "\n" ++ sp (2 * l) ++ "]"

/-- One user object at nesting level `l`, keys in the insertion order of the
finalization dict literal. -/
def juser (l : Nat) (u : UserRec) : String :=
  let ind := sp (2 * (l + 1))
  "\x7b\n" ++ String.intercalate ",\n" [
    ind ++ "\"telegram_id\": " ++ jint u.telegram_id,
    ind ++ "\"photo_file_id\": " ++ jopt jstr u.photo_file_id,
    ind ++ "\"name\": " ++ jopt jstr u.name,
    ind ++ "\"age\": " ++ jopt jint u.age,
    ind ++ "\"gender\": " ++ jopt jstr u.gender,
    ind ++ "\"interest\": " ++ jopt jstr u.interest,
    ind ++ "\"city\": " ++ jopt jstr u.city,
    ind ++ "\"bio\": " ++ jopt jstr u.bio,
    ind ++ "\"registered\": " ++ jbool u.registered,
    ind ++ "\"vip\": " ++ jbool u.vip,
    ind ++ "\"likes\": " ++ jarr (l + 1) u.likes,
    ind ++ "\"liked_by\": " ++ jarr (l + 1) u.liked_by,
    ind ++ "\"matches\": " ++ jarr (l + 1) u.«matches»,
    ind ++ "\"current_fake_index\": " ++ toString u.current_fake_index,
    ind ++ "\"current_real_index\": " ++ toString u.current_real_index,
    ind ++ "\"coins\": " ++ jint u.coins,
    ind ++ "\"created_at\": " ++ jint u.created_at
  ] ++ "\n" ++ sp (2 * l) ++ "\x7d"

/-- The `users` mapping, at nesting level 1. -/
def jusers (users : List (String × UserRec)) : String :=
  match users with
  | [] => "\x7b\x7d"
  | _ =>
    "\x7b\n" ++ String.intercalate ",\n"
        (users.map (fun kv => sp 4 ++ jstr kv.1 ++ ": " ++ juser 2 kv.2)) ++
      "\n  \x7d"

/-- The present `meta` keys, in their creation order. -/
def metaFields (m : MetaInfo) : List (String × Int) :=
  (m.created_by.map (fun v => ("created_by", v))).toList ++
  (m.created_at.map (fun v => ("created_at", v))).toList ++
  (m.last_init_by.map (fun v => ("last_init_by", v))).toList ++
  (m.last_init_at.map (fun v => ("last_init_at", v))).toList

/-- The `meta` mapping, at nesting level 1. -/
def jmeta (m : MetaInfo) : String :=
  match metaFields m with
  | [] => "\x7b\x7d"
  | fs =>
    "\x7b\n" ++ String.intercalate ",\n"
        (fs.map (fun kv => sp 4 ++ jstr kv.1 ++ ": " ++ jint kv.2)) ++
      "\n  \x7d"

/-- `json.dumps(db, ensure_ascii=False, indent=2)` for the document shape. -/
def dumps (db : Doc) : String :=
  "\x7b\n  \"users\": " ++ jusers db.users ++ ",\n  \"meta\": " ++ jmeta db.meta ++ "\n\x7d"

/-- `load_db` (src/db.py): the pinned document, or the base structure when no
pinned message exists.  (Transport and parse failures also fall back to the
base structure; the model folds those into `none`.) -/
def load_db (st : Option Doc) : Doc := st.getD emptyDoc

/-- `save_db` (src/db.py): reject documents whose serialization exceeds 3800
characters without writing; otherwise replace the pinned document. -/
def save_db (db : Doc) (st : Option Doc) : Bool × Option Doc :=
  if (dumps db).length > 3800 then (false, st) else (true, some db)

/-- `get_user_record` (src/db.py). -/
def get_user_record (tgid : Int) (st : Option Doc) : Option UserRec :=
  aget (load_db st).users (toString tgid)

/-- `save_user_record` (src/db.py). -/
def save_user_record (tgid : Int) (rec : UserRec) (st : Option Doc) : Bool × Option Doc :=
  let db := load_db st
  save_db { db with users := aset db.users (toString tgid) rec } st

/-- `delete_user_record` (src/db.py): `False` when the key is absent,
otherwise remove the key and save. -/
def delete_user_record (tgid : Int) (st : Option Doc) : Bool × Option Doc :=
  let db := load_db st
  if (aget db.users (toString tgid)).isSome then
    save_db { db with users := adel db.users (toString tgid) } st
  else (false, st)

/-- `safe_init_db` (src/db.py): when `users` is non-empty only the
`last_init_by` / `last_init_at` meta keys are written; otherwise a fresh
document is created.  `created_by`/`now` stand for the actor id and
`int(time.time())`. -/
def safe_init_db (created_by now : Int) (st : Option Doc) : Bool × Option Doc :=
  let db := load_db st
  if db.users.isEmpty then
    save_db ⟨[], ⟨some created_by, some now, none, none⟩⟩ st
  else
    save_db { db with meta :=
      { db.meta with last_init_by := some created_by, last_init_at := some now } } st

/-- `cmd_init_db` in src/app.py (admin path): unlike `safe_init_db`, it
builds a fresh empty document unconditionally and saves it. -/
def app_cmd_init_db (actor now : Int) (st : Option Doc) : Bool × Option Doc :=
  save_db ⟨[], ⟨some actor, some now, none, none⟩⟩ st

example : dumps emptyDoc = "\x7b\n  \"users\": \x7b\x7d,\n  \"meta\": \x7b\x7d\n\x7d" := by decide

/-- A decoy profile from the static pools in src/handlers.py. -/
structure FakeProfile where
  name : String
  age : Int
  city : String
  bio : String
  photo : String
deriving DecidableEq

def FAKE_MALE : List FakeProfile := [
  ⟨"Rahul", 24, "Delhi", "Coffee & coding.", "https://picsum.photos/400?random=11"⟩,
  ⟨"Aman", 26, "Mumbai", "Traveler.", "https://picsum.photos/400?random=12"⟩
]

def FAKE_FEMALE : List FakeProfile := [
  ⟨"Priya", 22, "Delhi", "Bookworm.", "https://picsum.photos/400?random=21"⟩,
  ⟨"Anjali", 24, "Pune", "Artist.", "https://picsum.photos/400?random=22"⟩
]

/-- The transient per-user registration buffer (`TEMP_BUFFER[uid]`). -/
structure TempBuffer where
  photo_file_id : Option String := none
  name : Option String := none
  age : Option Int := none
  gender : Option String := none
  interest : Option String := none
  city : Option String := none
  bio : Option String := none
deriving DecidableEq

/-- An outgoing messaging-platform call (delivery assumed to succeed). -/
inductive Ev where
  | sendMsg (dst : Int) (text : String)
  | sendPhoto (dst : Int) (photo : String) (caption : String)
  | replyMsg (dst : Int) (text : String)
  | answerCb (text : String)
  | editCaption (suffix : String)
deriving DecidableEq

/-- The complete observable state: the two in-memory registration dicts, the
pinned document, the emitted platform calls, and the instrumented results of
the `save_db` calls made so far. -/
structure World where
  regStep : List (Int × String) := []
  tempBuffer : List (Int × TempBuffer) := []
  store : Option Doc := none
  events : List Ev := []
  saveLog : List Bool := []
deriving DecidableEq

def emit (w : World) (e : Ev) : World := { w with events := w.events ++ [e] }

/-- `save_user_record` at the `World` level; records the boolean result. -/
def worldSave (tgid : Int) (rec : UserRec) (w : World) : World × Bool :=
  let r := save_user_record tgid rec w.store
  ({ w with store := r.2, saveLog := w.saveLog ++ [r.1] }, r.1)

/-- `cmd_start` (src/handlers.py): registered users are greeted; everyone
else gets a fresh buffer and the `photo` step. -/
def cmd_start (uid : Int) (w : World) : World :=
  let urec? := get_user_record uid w.store
  if (urec?.map (fun r => r.registered)).getD false then
    emit w (.sendMsg uid ("Welcome back, <b>" ++ ((urec?.bind (fun r => r.name)).getD "None") ++ "</b>!"))
  else
    let w := { w with tempBuffer := aset w.tempBuffer uid {},
                      regStep := aset w.regStep uid "photo" }
    emit w (.sendMsg uid "Welcome! Step 1: Please upload a profile photo (mandatory).")

/-- `handle_photo` (src/handlers.py). -/
def handle_photo (uid : Int) (fileId : String) (w : World) : World :=
  if aget w.regStep uid = some "photo" then
    let buf := (aget w.tempBuffer uid).getD {}
    let w := { w with tempBuffer := aset w.tempBuffer uid { buf with photo_file_id := some fileId },
                      regStep := aset w.regStep uid "name" }
    emit w (.sendMsg uid "Photo saved. Step 2: Send your full name.")
  else
    match get_user_record uid w.store with
    | some urec =>
      if urec.registered then
        let wr := worldSave uid { urec with photo_file_id := some fileId } w
        emit wr.1 (.replyMsg uid "Profile photo updated.")
      else emit w (.replyMsg uid "Unexpected photo. Use /start to register.")
    | none => emit w (.replyMsg uid "Unexpected photo. Use /start to register.")

/-- `handle_text` (src/handlers.py): the registration state machine.  `now`
stands for `int(time.time())` at finalization. -/
def handle_text (uid : Int) (raw : String) (now : Int) (w : World) : World :=
  let text := pyStrip raw
  if startsWithSlash text then w
  else
    match aget w.regStep uid with
    | none => emit w (.sendMsg uid "Use the menu or /start to register.")
    | some step =>
      let buf := (aget w.tempBuffer uid).getD {}
      if step = "name" then
        let w := { w with tempBuffer := aset w.tempBuffer uid { buf with name := some text },
                          regStep := aset w.regStep uid "age" }
        emit w (.sendMsg uid "Step 3: Enter your age (18+).")
      else if step = "age" then
        if !isDigits text || strToNat text < 18 then
          emit w (.sendMsg uid "Enter a valid age (18+).")
        else
          let w := { w with tempBuffer := aset w.tempBuffer uid { buf with age := some (strToNat text : Int) },
                            regStep := aset w.regStep uid "gender" }
          emit w (.sendMsg uid "Step 4: Gender (male/female).")
      else if step = "gender" then
        if pyLower text ≠ "male" ∧ pyLower text ≠ "female" then
          emit w (.sendMsg uid "Type \x27male\x27 or \x27female\x27.")
        else
          let w := { w with tempBuffer := aset w.tempBuffer uid { buf with gender := some (pyLower text) },
                            regStep := aset w.regStep uid "interest" }
          emit w (.sendMsg uid "Step 5: Who do you want to see? (male/female/both)")
      else if step = "interest" then
        if pyLower text ≠ "male" ∧ pyLower text ≠ "female" ∧ pyLower text ≠ "both" then
          emit w (.sendMsg uid "Type \x27male\x27,\x27female\x27 or \x27both\x27.")
        else
          let w := { w with tempBuffer := aset w.tempBuffer uid { buf with interest := some (pyLower text) },
                            regStep := aset w.regStep uid "city" }
          emit w (.sendMsg uid "Step 6: Enter your city")
      else if step = "city" then
        let w := { w with tempBuffer := aset w.tempBuffer uid { buf with city := some text },
                          regStep := aset w.regStep uid "bio" }
        emit w (.sendMsg uid "Step 7: Send a short bio (one line).")
      else if step = "bio" then
        let buf := { buf with bio := some text }
        let w := { w with tempBuffer := aset w.tempBuffer uid buf }
        let urec : UserRec := {
          telegram_id := uid,
          photo_file_id := buf.photo_file_id,
          name := buf.name,
          age := buf.age,
          gender := buf.gender,
          interest := buf.interest,
          city := buf.city,
          bio := buf.bio,
          registered := true,
          vip := false,
          likes := [],
          liked_by := [],
          «matches» := [],
          current_fake_index := 0,
          current_real_index := 0,
          coins := 20,
          created_at := now }
        let wr := worldSave uid urec w
        let w := { wr.1 with regStep := adel wr.1.regStep uid,
                             tempBuffer := adel wr.1.tempBuffer uid }
        if wr.2 then
          emit w (.sendMsg uid "Registration complete! Use /menu to browse.")
        else
          emit w (.sendMsg uid "Failed to save profile — contact admin.")
      else w

/-- `cmd_start` in src/main.py: the self-labeled temporary test block that
bypasses the whole registration entry (the original body is commented out in
the source). -/
def main_cmd_start (uid : Int) (w : World) : World :=
  emit w (.sendMsg uid "TEMPORARY TEST SUCCESS! DB Check bypassed.")

/-- The candidate filter of the `menu_browse` callback branch: every other
registered user whose gender matches the requester's stated interest. -/
def candidatesOf (selfKey pref : String) (users : List (String × UserRec)) :
    List (String × UserRec) :=
  users.filter (fun kv =>
    kv.1 ≠ selfKey ∧ kv.2.registered = true ∧ (pref = "both" ∨ kv.2.gender = some pref))

def fakeCaption (p : FakeProfile) : String :=
  p.name ++ ", " ++ toString p.age ++ "\n" ++ p.city ++ "\n\n" ++ p.bio

def optStr (o : Option String) : String := o.getD "None"

def optIntStr (o : Option Int) : String :=
  match o with
  | some i => toString i
  | none => "None"

def realCaption (u : UserRec) : String :=
  optStr u.name ++ ", " ++ optIntStr u.age ++ "\n" ++ optStr u.city ++ "\n\n" ++ optStr u.bio

/-- The decoy pool of the non-VIP `menu_browse` branch (src/handlers.py):
`FAKE_MALE + FAKE_FEMALE if pref == "both" else (FAKE_MALE if pref == "male"
else FAKE_FEMALE)`. -/
def fakePoolOf (pref : String) : List FakeProfile :=
  if pref = "both" then FAKE_MALE ++ FAKE_FEMALE
  else if pref = "male" then FAKE_MALE else FAKE_FEMALE

/-- The `menu_browse` branch of `callback_query` (src/handlers.py).  Besides
the updated world it returns which pool index was shown (instrumentation). -/
def menu_browse_cb (uid : Int) (w : World) : World × Option Nat :=
  match get_user_record uid w.store with
  | none => (emit w (.sendMsg uid "Register first with /start."), none)
  | some urec =>
    if urec.vip then
      let db := load_db w.store
      let pref := urec.interest.getD "both"
      let candidates := candidatesOf (toString uid) pref db.users
      if candidates.isEmpty then
        (emit w (.sendMsg uid "No real profiles available yet."), none)
      else
        let n := candidates.length
        let idx := urec.current_real_index % n
        let kv := candidates.getD idx ("", urec)
        let rec2 := { urec with current_real_index := (idx + 1) % n }
        let wr := worldSave uid rec2 w
        let ev := match kv.2.photo_file_id with
          | some p => Ev.sendPhoto uid p (realCaption kv.2)
          | none => Ev.sendMsg uid (realCaption kv.2)
        (emit wr.1 ev, some idx)
    else
      let pref := urec.interest.getD "both"
      let pool := fakePoolOf pref
      let n := pool.length
      let idx := urec.current_fake_index % n
      let profile := pool.getD idx ⟨"", 0, "", "", ""⟩
      let rec2 := { urec with current_fake_index := (idx + 1) % n }
      let wr := worldSave uid rec2 w
      (emit wr.1 (.sendPhoto uid profile.photo (fakeCaption profile)), some idx)

/-- The size of the pool a `menu_browse` call by user `u` traverses: the
filtered real pool for a VIP requester, the static decoy pool otherwise. -/
def browsePoolLen (selfKey : String) (u : UserRec) (users : List (String × UserRec)) : Nat :=
  if u.vip = true then (candidatesOf selfKey (u.interest.getD "both") users).length
  else (fakePoolOf (u.interest.getD "both")).length

/-- The cursor a `menu_browse` call by user `u` reads and advances:
`current_real_index` for a VIP requester, `current_fake_index` otherwise. -/
def browseCursor (u : UserRec) : Nat :=
  if u.vip = true then u.current_real_index else u.current_fake_index

/-- `if str(target) not in me.get("likes", []): me["likes"].append(str(target))`. -/
def addLike (r : UserRec) (x : String) : UserRec :=
  if x ∈ r.likes then r else { r with likes := r.likes ++ [x] }

/-- `if str(uid) not in tgt.get("liked_by", []): tgt["liked_by"].append(str(uid))`. -/
def addLikedBy (r : UserRec) (x : String) : UserRec :=
  if x ∈ r.liked_by then r else { r with liked_by := r.liked_by ++ [x] }

/-- `if ... not in ....get("matches", []): ...["matches"].append(...)`. -/
def addMatch (r : UserRec) (x : String) : UserRec :=
  if x ∈ r.«matches» then r else { r with «matches» := r.«matches» ++ [x] }

/-- The `like_` branch of `callback_query` (src/handlers.py). -/
def like_cb (uid target : Int) (w : World) : World :=
  let me? := get_user_record uid w.store
  let tgt? := get_user_record target w.store
  match me? with
  | none => emit w (.answerCb "VIP required to like real profiles. Use /menu -> VIP.")
  | some me =>
    if me.vip = false then
      emit w (.answerCb "VIP required to like real profiles. Use /menu -> VIP.")
    else
      match tgt? with
      | none => emit w (.answerCb "Target not found.")
      | some tgt =>
        let me := addLike me (toString target)
        let tgt := addLikedBy tgt (toString uid)
        if toString uid ∈ tgt.likes then
          let me := addMatch me (toString target)
          let tgt := addMatch tgt (toString uid)
          let wr1 := worldSave uid me w
          let wr2 := worldSave target tgt wr1.1
          let w := emit wr2.1 (.answerCb "🎉 It\x27s a MATCH!")
          let w := emit w (.sendMsg target ("🎉 You matched with " ++ optStr me.name ++ "!"))
          emit w (.editCaption "\n\n🎉 It\x27s a MATCH!")
        else
          let wr1 := worldSave uid me w
          let wr2 := worldSave target tgt wr1.1
          let w := emit wr2.1 (.answerCb "Liked.")
          emit w (.editCaption "\n\n✅ You liked this profile.")

/-- The `fake_like` branch of `callback_query` (src/handlers.py): cosmetic
only. -/
def fake_like_cb (w : World) : World :=
  let w := emit w (.answerCb "Preview: someone liked you (fake). Upgrade to VIP for real matches.")
  emit w (.editCaption "\n\n❤️ They liked you! (preview)")

/-- The `fake_next` branch of `callback_query` (src/handlers.py). -/
def fake_next_cb (uid : Int) (w : World) : World :=
  let w := emit w (.answerCb "Next preview...")
  emit w (.sendMsg uid "/menu")

/-- The like/skip-flavored callback actions a requester can issue. -/
inductive CbAction where
  | fakeLike
  | fakeNext
  | likeReal (target : Int)
deriving DecidableEq

def cb_step (uid : Int) (w : World) : CbAction → World
  | .fakeLike => fake_like_cb w
  | .fakeNext => fake_next_cb uid w
  | .likeReal t => like_cb uid t w

/-- Any finite sequence of like/skip callback actions by one requester. -/
def cb_run (uid : Int) (acts : List CbAction) (w : World) : World :=
  acts.foldl (cb_step uid) w

/-- `n` consecutive `menu_browse` calls; collects the shown pool indices. -/
def browse_run (uid : Int) : Nat → World → World × List Nat
  | 0, w => (w, [])
  | Nat.succ n, w =>
    let r := menu_browse_cb uid w
    let rest := browse_run uid n r.1
    (rest.1, r.2.toList ++ rest.2)

/-! Concrete instances used by witnesses and counterexamples. -/

def w0 : World := {}

def regInputs : List String := ["Alex", "25", "male", "both", "Paris", "Loves hiking."]

/-- The exact valid registration sequence of the spec, fed from a fresh
state (entry via `cmd_start`, then the photo, then the six text answers). -/
def regRun : World :=
  regInputs.foldl (fun w t => handle_text 12345 t 100 w)
    (handle_photo 12345 "PH1" (cmd_start 12345 w0))

/-- The same prefix, but feeding "17" at the age step. -/
def ageRejectRun : World :=
  handle_text 12345 "17" 100
    (handle_text 12345 "Alex" 100 (handle_photo 12345 "PH1" (cmd_start 12345 w0)))

def bigUser : UserRec :=
  ⟨1, none, some "X", some 20, some "male", some "both", some "C",
    some (String.mk (List.replicate 4000 'a')), true, false, [], [], [], 0, 0, 20, 0⟩

/-- A document whose serialization exceeds the 3800-character ceiling. -/
def bigDoc : Doc := ⟨[("1", bigUser)], emptyMeta⟩

def user101 : UserRec :=
  ⟨101, some "P1", some "Ann", some 30, some "female", some "both", some "Delhi",
    some "hi", true, false, [], [], [], 0, 0, 20, 7⟩

def docWithUser : Doc := ⟨[("101", user101)], ⟨some 1, some 5, none, none⟩⟩

def longBio : String := String.mk (List.replicate 250 'a')

def bioBuf : TempBuffer :=
  ⟨some "PH1", some "Alex", some 25, some "male", some "both", some "Paris", none⟩

/-- A world sitting at the `bio` registration step. -/
def bioWorld : World := ⟨[(7, "bio")], [(7, bioBuf)], none, [], []⟩

def userA1 : UserRec :=
  ⟨1, some "PA", some "Asha", some 24, some "female", some "both", some "Delhi",
    some "a", true, true, [], [], [], 0, 0, 20, 1⟩

def userB2 : UserRec :=
  ⟨2, some "PB", some "Bela", some 25, some "female", some "both", some "Pune",
    some "b", true, true, ["1"], [], [], 0, 0, 20, 2⟩

def docAB : Doc := ⟨[("1", userA1), ("2", userB2)], emptyMeta⟩

def wAB : World := ⟨[], [], some docAB, [], []⟩

def userV9 : UserRec :=
  ⟨9, some "PV", some "Vik", some 30, some "male", some "both", some "Goa",
    some "v", true, true, [], [], [], 0, 7, 20, 3⟩

def docPool : Doc := ⟨[("1", userA1), ("9", userV9), ("2", userB2)], emptyMeta⟩

def wPool : World := ⟨[], [], some docPool, [], []⟩

def userN3 : UserRec :=
  ⟨3, some "PN", some "Nia", some 22, some "female", some "both", some "Pune",
    some "n", true, false, [], [], [], 0, 0, 20, 4⟩

def docNV : Doc := ⟨[("3", userN3), ("1", userA1)], emptyMeta⟩

def wNV : World := ⟨[], [], some docNV, [], []⟩

def user5 : UserRec :=
  ⟨5, some "P5", some "Eli", some 28, some "male", some "both", some "Agra",
    some "e", true, true, ["8"], [], [], 0, 0, 20, 5⟩

def user8 : UserRec :=
  ⟨8, some "P8", some "Oma", some 27, some "female", some "both", some "Pune",
    some "o", true, false, [], ["5"], [], 0, 0, 20, 6⟩

def docDel : Doc := ⟨[("5", user5), ("8", user8)], emptyMeta⟩

/-! Helper lemmas about the association-list dictionary operations. -/

@[simp]
theorem aget_aset_self {κ α : Type} [DecidableEq κ] (m : List (κ × α)) (k : κ) (v : α) :
    aget (aset m k v) k = some v := by
  induction m with
  | nil => simp [aget, aset]
  | cons hd tl ih =>
    obtain ⟨k0, v0⟩ := hd
    by_cases h : k0 = k <;> simp [aget, aset, h, ih]

theorem aget_aset_ne {κ α : Type} [DecidableEq κ] (m : List (κ × α)) (k k2 : κ) (v : α)
    (h : k ≠ k2) : aget (aset m k v) k2 = aget m k2 := by
  induction m with
  | nil => simp [aget, aset, h]
  | cons hd tl ih =>
    obtain ⟨k0, v0⟩ := hd
    by_cases h0 : k0 = k <;> simp [aget, aset, h0, h, ih]

theorem aset_aset {κ α : Type} [DecidableEq κ] (m : List (κ × α)) (k : κ) (v v2 : α) :
    aset (aset m k v) k v2 = aset m k v2 := by
  induction m with
  | nil => simp [aset]
  | cons hd tl ih =>
    obtain ⟨k0, v0⟩ := hd
    by_cases h : k0 = k <;> simp [aset, h, ih]

theorem aset_eq_of_aget {κ α : Type} [DecidableEq κ] (m : List (κ × α)) (k : κ) (v : α)
    (h : aget m k = some v) : aset m k v = m := by
  induction m with
  | nil => simp [aget] at h
  | cons hd tl ih =>
    obtain ⟨k0, v0⟩ := hd
    by_cases h0 : k0 = k
    · subst h0
      simp [aget] at h
      simp [aset, h]
    · simp [aget, h0] at h
      simp [aset, h0, ih h]

theorem aget_adel_ne {κ α : Type} [DecidableEq κ] (m : List (κ × α)) (k k2 : κ)
    (h : k2 ≠ k) : aget (adel m k) k2 = aget m k2 := by
  induction m with
  | nil => simp [adel]
  | cons hd tl ih =>
    obtain ⟨k0, v0⟩ := hd
    by_cases h0 : k0 = k
    · subst h0
      simp [adel, aget, Ne.symm h]
    · simp only [adel, if_neg h0]
      by_cases h2 : k0 = k2 <;> simp [aget, h2, ih]

theorem aget_eq_none_of_not_mem {κ α : Type} [DecidableEq κ] (m : List (κ × α)) (k : κ)
    (h : k ∉ m.map Prod.fst) : aget m k = none := by
  induction m with
  | nil => rfl
  | cons hd tl ih =>
    obtain ⟨k0, v0⟩ := hd
    simp only [List.map_cons, List.mem_cons] at h
    push_neg at h
    simp [aget, Ne.symm h.1, ih h.2]

theorem aget_adel_self {κ α : Type} [DecidableEq κ] (m : List (κ × α)) (k : κ)
    (hnd : (m.map Prod.fst).Nodup) : aget (adel m k) k = none := by
  induction m with
  | nil => simp [adel, aget]
  | cons hd tl ih =>
    obtain ⟨k0, v0⟩ := hd
    simp only [List.map_cons, List.nodup_cons] at hnd
    by_cases h0 : k0 = k
    · subst h0
      simp only [adel, if_pos rfl]
      exact aget_eq_none_of_not_mem tl k0 hnd.1
    · simp [adel, aget, h0, ih hnd.2]

/-! Helper lemmas about the world and store operations. -/

@[simp] theorem emit_regStep (w : World) (e : Ev) : (emit w e).regStep = w.regStep := rfl

@[simp] theorem emit_tempBuffer (w : World) (e : Ev) : (emit w e).tempBuffer = w.tempBuffer := rfl

@[simp] theorem emit_store (w : World) (e : Ev) : (emit w e).store = w.store := rfl

@[simp] theorem emit_saveLog (w : World) (e : Ev) : (emit w e).saveLog = w.saveLog := rfl

@[simp] theorem emit_events (w : World) (e : Ev) : (emit w e).events = w.events ++ [e] := rfl

theorem save_db_true (db : Doc) (st : Option Doc) (h : (save_db db st).1 = true) :
    save_db db st = (true, some db) := by
  by_cases hc : (dumps db).length > 3800
  · simp [save_db, hc] at h
  · simp [save_db, hc]

theorem save_db_snd (db : Doc) (st : Option Doc) :
    (save_db db st).2 = if (save_db db st).1 then some db else st := by
  by_cases hc : (dumps db).length > 3800 <;> simp [save_db, hc]

/-- Claim C1: for every document whose serialized JSON form exceeds the
3800-character ceiling, `save_db` returns failure (`false`) without
attempting any write, so the previously persisted document is unchanged. -/
theorem save_db_capacity (db : Doc) (st : Option Doc)
    (h : 3800 < (dumps db).length) : save_db db st = (false, st) := by
  simp [save_db, h]

theorem intercalate_single (s a : String) : String.intercalate s [a] = a := rfl

theorem intercalate_cons_cons (s a b : String) (rest : List String) :
    String.intercalate s (a :: b :: rest) = String.intercalate s ((a ++ s ++ b) :: rest) := rfl

theorem flatten_map_singleton {α : Type} (l : List α) :
    (l.map (fun c => [c])).flatten = l := by
  induction l with
  | nil => rfl
  | cons c t ih => simp [ih]

/-- The JSON length of a string literal none of whose characters needs
escaping is its length plus the two quotes. -/
theorem jstr_plain_length (l : List Char) (h : l.map escCharList = l.map (fun c => [c])) :
    (jstr (String.mk l)).length = l.length + 2 := by
  show ("\"" ++ String.mk (l.map escCharList).flatten ++ "\"").length = l.length + 2
  rw [h, flatten_map_singleton, String.length_append, String.length_append]
  show "\"".length + l.length + "\"".length = l.length + 2
  rw [show ("\"" : String).length = 1 from rfl]
  omega

theorem bigBio_jstr_length : (jstr (String.mk (List.replicate 4000 'a'))).length = 4002 := by
  have hmap : (List.replicate 4000 'a').map escCharList
      = (List.replicate 4000 'a').map (fun c => [c]) := by
    rw [List.map_replicate, List.map_replicate]
    rw [show escCharList 'a' = ['a'] from by decide]
  have h := jstr_plain_length (List.replicate 4000 'a') hmap
  rw [List.length_replicate] at h
  exact h

theorem juser_bigUser_length : (juser 2 bigUser).length = 4393 := by
  simp only [juser, bigUser, jopt]
  simp only [intercalate_cons_cons, intercalate_single]
  simp only [String.length_append]
  rw [bigBio_jstr_length]
  decide

theorem dumps_bigDoc_length : 3800 < (dumps bigDoc).length := by
  have h1 : (dumps bigDoc).length = 4437 := by
    simp only [dumps, bigDoc, jusers, List.map_cons, List.map_nil]
    simp only [intercalate_single]
    simp only [String.length_append]
    rw [juser_bigUser_length]
    decide
  omega

/-- Witness for C1: a document with a 4000-character bio is rejected and the
(absent) pinned state is untouched. -/
theorem save_db_capacity_witness : save_db bigDoc none = (false, none) :=
  save_db_capacity bigDoc none dumps_bigDoc_length

/-- Claim C10: any text whose stripped form begins with "/" makes
`handle_text` return early, leaving the registration step, the transient
buffer, the persisted document and the outgoing messages all unchanged. -/
theorem handle_text_command_guard (uid : Int) (raw : String) (now : Int) (w : World)
    (h : startsWithSlash (pyStrip raw) = true) :
    handle_text uid raw now w = w := by
  unfold handle_text
  simp [h]

/-- Witness for C10 at a concrete mid-registration state. -/
theorem handle_text_command_guard_witness :
    handle_text 7 "  /start" 100 bioWorld = bioWorld :=
  handle_text_command_guard 7 "  /start" 100 bioWorld (by decide)

/-- Claim C7 (code bug in src/main.py): the `/start` handler of main.py is a
self-labeled temporary test block that returns after sending a test message,
so for every user — registered or not — it never initializes the transient
buffer and never sets the registration state to `photo`, contrary to the
claim (and to the commented-out original body, and to the working
`cmd_start` of src/handlers.py and src/app.py). -/
theorem main_cmd_start_bypasses (uid : Int) (w : World) :
    (main_cmd_start uid w).regStep = w.regStep ∧
    (main_cmd_start uid w).tempBuffer = w.tempBuffer ∧
    (main_cmd_start uid w).store = w.store ∧
    (main_cmd_start uid w).events =
      w.events ++ [Ev.sendMsg uid "TEMPORARY TEST SUCCESS! DB Check bypassed."] :=
  ⟨rfl, rfl, rfl, rfl⟩

/-- Claim C3: starting the registration machine from a clean state (entry
via `cmd_start` on a fresh user, so no step and an empty buffer) and feeding
the exact valid sequence photo, "Alex", "25", "male", "both", "Paris",
"Loves hiking." produces exactly one persisted record, with
`registered = true`, `age = 25`, `gender = "male"`, `coins = 20` and empty
likes/liked_by/matches, and clears the step; feeding "17" at the age step
instead leaves the state at `age`, leaves the buffer age unset, and persists
no record. -/
theorem registration_deterministic :
    regRun.store.map (fun d => d.users.map Prod.fst) = some ["12345"] ∧
    (get_user_record 12345 regRun.store).map (fun u => u.registered) = some true ∧
    (get_user_record 12345 regRun.store).map (fun u => u.age) = some (some 25) ∧
    (get_user_record 12345 regRun.store).map (fun u => u.gender) = some (some "male") ∧
    (get_user_record 12345 regRun.store).map (fun u => u.coins) = some 20 ∧
    (get_user_record 12345 regRun.store).map (fun u => u.likes) = some [] ∧
    (get_user_record 12345 regRun.store).map (fun u => u.liked_by) = some [] ∧
    (get_user_record 12345 regRun.store).map (fun u => u.«matches») = some [] ∧
    aget regRun.regStep 12345 = none ∧
    aget ageRejectRun.regStep 12345 = some "age" ∧
    (aget ageRejectRun.tempBuffer 12345).map (fun b => b.age) = some none ∧
    ageRejectRun.store = none := by decide

/-- Counterexample for C2: the `/init_db` handler of src/app.py (one of the
claimed sources) saves a fresh empty document unconditionally, overwriting a
store whose `users` map is non-empty — so "the initialize operation never
overwrites an existing non-empty users map" is false for that variant. -/
theorem app_init_db_wipes_users :
    docWithUser.users ≠ [] ∧
    app_cmd_init_db 9 99 (some docWithUser) =
      (true, some ⟨[], ⟨some 9, some 99, none, none⟩⟩) := by decide

/-- Claim C2 (amended): the `safe_init_db` variants (src/db.py, src/main.py)
are idempotent with respect to user data — with a non-empty loaded `users`
map, a successful initialize persists the same `users`, keeps
`created_by`/`created_at`, and only updates `last_init_by`/`last_init_at`;
the src/app.py `/init_db` handler instead rebuilds a fresh document. -/
theorem safe_init_db_preserves_users (st : Option Doc) (actor now : Int)
    (hne : (load_db st).users ≠ [])
    (hok : (safe_init_db actor now st).1 = true) :
    ∃ d, (safe_init_db actor now st).2 = some d ∧
      d.users = (load_db st).users ∧
      d.meta.created_by = (load_db st).meta.created_by ∧
      d.meta.created_at = (load_db st).meta.created_at ∧
      d.meta.last_init_by = some actor ∧
      d.meta.last_init_at = some now := by
  have hie : (load_db st).users.isEmpty = false := by
    cases h : (load_db st).users with
    | nil => exact absurd h hne
    | cons a l => rfl
  simp only [safe_init_db, hie, Bool.false_eq_true, if_false] at hok ⊢
  rw [save_db_true _ _ hok]
  exact ⟨_, rfl, rfl, rfl, rfl, rfl, rfl⟩

/-- Witness for the amended C2 at a concrete non-empty store. -/
theorem safe_init_db_preserves_users_witness :
    ∃ d, (safe_init_db 9 99 (some docWithUser)).2 = some d ∧
      d.users = (load_db (some docWithUser)).users ∧
      d.meta.created_by = (load_db (some docWithUser)).meta.created_by ∧
      d.meta.created_at = (load_db (some docWithUser)).meta.created_at ∧
      d.meta.last_init_by = some 9 ∧
      d.meta.last_init_at = some 99 :=
  safe_init_db_preserves_users (some docWithUser) 9 99 (by decide) (by decide)

/-- Counterexample for C9: a 250-character bio is not rejected — at the bio
step the handler accepts it, finalizes and persists the record (bio kept in
full), and clears the step, contradicting the claimed bounded-length
validator with re-prompt and no state advance. -/
theorem bio_oversized_accepted :
    200 < longBio.length ∧
    aget (handle_text 7 longBio 100 bioWorld).regStep 7 = none ∧
    (get_user_record 7 (handle_text 7 longBio 100 bioWorld).store).map (fun u => u.bio) =
      some (some longBio) := by decide

theorem mem_keys_aset {κ α : Type} [DecidableEq κ] (m : List (κ × α)) (k x : κ) (v : α)
    (hx : x ∈ (aset m k v).map Prod.fst) : x ∈ m.map Prod.fst ∨ x = k := by
  induction m with
  | nil => simpa [aset] using hx
  | cons hd tl ih =>
    obtain ⟨k0, v0⟩ := hd
    by_cases h0 : k0 = k
    · subst h0
      rw [show aset ((k0, v0) :: tl) k0 v = (k0, v) :: tl from by simp [aset]] at hx
      simp only [List.map_cons, List.mem_cons] at hx ⊢
      tauto
    · rw [show aset ((k0, v0) :: tl) k v = (k0, v0) :: aset tl k v from by simp [aset, h0]] at hx
      simp only [List.map_cons, List.mem_cons] at hx ⊢
      rcases hx with hx | hx
      · tauto
      · rcases ih hx with h | h <;> tauto

theorem aset_keys_nodup {κ α : Type} [DecidableEq κ] (m : List (κ × α)) (k : κ) (v : α)
    (h : (m.map Prod.fst).Nodup) : ((aset m k v).map Prod.fst).Nodup := by
  induction m with
  | nil => simp [aset]
  | cons hd tl ih =>
    obtain ⟨k0, v0⟩ := hd
    simp only [List.map_cons, List.nodup_cons] at h
    by_cases h0 : k0 = k
    · subst h0
      rw [show aset ((k0, v0) :: tl) k0 v = (k0, v) :: tl from by simp [aset]]
      simp only [List.map_cons, List.nodup_cons]
      exact ⟨h.1, h.2⟩
    · rw [show aset ((k0, v0) :: tl) k v = (k0, v0) :: aset tl k v from by simp [aset, h0]]
      simp only [List.map_cons, List.nodup_cons]
      exact ⟨fun hmem => (mem_keys_aset tl k k0 v hmem).elim h.1 h0, ih h.2⟩

theorem append_singleton_inj {α : Type} (xs : List α) (a b : α)
    (h : xs ++ [a] = xs ++ [b]) : a = b := by
  have h2 := List.append_cancel_left h
  injection h2

/-- Claim C8: `delete_user_record` with an absent id returns false and
persists nothing; with a present id it removes exactly that key, leaves
every other record unchanged — including a stale occurrence of the deleted
id in another record's likes (deleting B after A liked B leaves B in
A.likes). -/
theorem delete_user_spec (st : Option Doc) (tgid : Int)
    (hnd : ((load_db st).users.map Prod.fst).Nodup) :
    (aget (load_db st).users (toString tgid) = none →
      delete_user_record tgid st = (false, st)) ∧
    (∀ urec, aget (load_db st).users (toString tgid) = some urec →
      (delete_user_record tgid st).1 = true →
      (delete_user_record tgid st).2 =
        some { load_db st with users := adel (load_db st).users (toString tgid) } ∧
      aget (adel (load_db st).users (toString tgid)) (toString tgid) = none ∧
      (∀ k, k ≠ toString tgid →
        aget (adel (load_db st).users (toString tgid)) k = aget (load_db st).users k) ∧
      (∀ k urec2, k ≠ toString tgid → aget (load_db st).users k = some urec2 →
        toString tgid ∈ urec2.likes →
        ∃ urec3, aget (adel (load_db st).users (toString tgid)) k = some urec3 ∧
          toString tgid ∈ urec3.likes)) := by
  constructor
  · intro h
    simp only [delete_user_record, h, Option.isSome_none, Bool.false_eq_true, if_false]
  · intro urec hu hok
    have hs : (aget (load_db st).users (toString tgid)).isSome = true := by
      rw [hu]; rfl
    simp only [delete_user_record, hs, if_true] at hok ⊢
    rw [save_db_true _ _ hok]
    refine ⟨rfl, aget_adel_self _ _ hnd, fun k hk => aget_adel_ne _ _ _ hk,
      fun k u2 hk hg hm => ⟨u2, ?_, hm⟩⟩
    rw [aget_adel_ne _ _ _ hk]
    exact hg

/-- Witness for C8: in `docDel`, user "5" has liked user "8"; deleting user 8
succeeds and leaves "8" dangling in user 5 likes. -/
theorem delete_user_spec_witness :
    ∃ urec3, aget (adel (load_db (some docDel)).users (toString (8 : Int))) "5" = some urec3 ∧
      toString (8 : Int) ∈ urec3.likes := by
  have h := (delete_user_spec (some docDel) 8 (by decide)).2 user8 (by decide) (by decide)
  exact h.2.2.2 "5" user5 (by decide) (by decide) (by decide)

/-- Claim C9 (amended): the bio step applies no validation — any non-command
text is accepted as the bio: the step and buffer are cleared, and when the
save succeeds the persisted record bio equals the stripped input.  There is
no length bound, no emptiness check and no re-prompt. -/
theorem bio_step_accepts_any_text (uid : Int) (raw : String) (now : Int) (w : World)
    (hstep : aget w.regStep uid = some "bio")
    (hcmd : startsWithSlash (pyStrip raw) = false)
    (hndr : (w.regStep.map Prod.fst).Nodup)
    (hndb : (w.tempBuffer.map Prod.fst).Nodup)
    (hok : (handle_text uid raw now w).saveLog = w.saveLog ++ [true]) :
    aget (handle_text uid raw now w).regStep uid = none ∧
    aget (handle_text uid raw now w).tempBuffer uid = none ∧
    (get_user_record uid (handle_text uid raw now w).store).map (fun u => u.bio) =
      some (some (pyStrip raw)) := by
  simp only [handle_text, hcmd, Bool.false_eq_true, if_false, hstep,
    worldSave, save_user_record, emit] at hok ⊢
  rw [if_neg (by decide : ¬(("bio" : String) = "name")),
      if_neg (by decide : ¬(("bio" : String) = "age")),
      if_neg (by decide : ¬(("bio" : String) = "gender")),
      if_neg (by decide : ¬(("bio" : String) = "interest")),
      if_neg (by decide : ¬(("bio" : String) = "city")),
      if_true] at hok ⊢
  split at hok
  next hb =>
    rw [if_pos hb]
    have hsd := save_db_true _ _ hb
    refine ⟨aget_adel_self _ _ hndr, aget_adel_self _ _ (aset_keys_nodup _ _ _ hndb), ?_⟩
    rw [hsd]
    simp [get_user_record, load_db]
  next hb =>
    exact absurd (append_singleton_inj _ _ _ hok) hb

/-- Witness for the amended C9 at a concrete bio-step state. -/
theorem bio_step_accepts_any_text_witness :
    aget (handle_text 7 "hello" 100 bioWorld).regStep 7 = none ∧
    aget (handle_text 7 "hello" 100 bioWorld).tempBuffer 7 = none ∧
    (get_user_record 7 (handle_text 7 "hello" 100 bioWorld).store).map (fun u => u.bio) =
      some (some (pyStrip "hello")) :=
  bio_step_accepts_any_text 7 "hello" 100 bioWorld (by decide) (by decide)
    (by decide) (by decide) (by decide)

/-- Claim C6: a non-VIP requester's like/skip callback actions (fake_like,
fake_next, or a like_ callback) never change the persisted document, no
matter how many times and in which order they are invoked — in particular no
User Record's likes, liked_by or matches is ever mutated. -/
theorem nonvip_actions_isolated (uid : Int) (w : World) (acts : List CbAction)
    (hnv : ∀ urec, get_user_record uid w.store = some urec → urec.vip = false) :
    (cb_run uid acts w).store = w.store := by
  induction acts generalizing w with
  | nil => rfl
  | cons a rest ih =>
    have hstep : (cb_step uid w a).store = w.store := by
      cases a with
      | fakeLike => simp [cb_step, fake_like_cb]
      | fakeNext => simp [cb_step, fake_next_cb]
      | likeReal t =>
        simp only [cb_step, like_cb]
        cases hme : get_user_record uid w.store with
        | none => simp [hme]
        | some me =>
          have hv := hnv me hme
          simp [hme, hv]
    calc (cb_run uid (a :: rest) w).store
        = (cb_run uid rest (cb_step uid w a)).store := rfl
      _ = (cb_step uid w a).store := ih _ (fun urec h => hnv urec (by rwa [hstep] at h))
      _ = w.store := hstep

/-- Witness for C6: a registered non-VIP user issuing all three action kinds
leaves the store untouched. -/
theorem nonvip_actions_isolated_witness :
    (cb_run 3 [CbAction.fakeLike, CbAction.likeReal 1, CbAction.fakeNext] wNV).store
      = wNV.store := by
  apply nonvip_actions_isolated
  intro urec h
  have h2 : userN3 = urec := Option.some.inj h
  rw [← h2]
  rfl

theorem all_true_append2 {l : List Bool} {x y : Bool}
    (h : ∀ v ∈ (l ++ [x]) ++ [y], v = true) : x = true ∧ y = true :=
  ⟨h x (by simp), h y (by simp)⟩

theorem double_save (a b : Int) (ra rb : UserRec) (st : Option Doc)
    (hk : toString a ≠ toString b)
    (h1 : (save_user_record a ra st).1 = true)
    (h2 : (save_user_record b rb (save_user_record a ra st).2).1 = true) :
    get_user_record a (save_user_record b rb (save_user_record a ra st).2).2 = some ra ∧
    get_user_record b (save_user_record b rb (save_user_record a ra st).2).2 = some rb ∧
    (∀ k, k ≠ toString a → k ≠ toString b →
      aget (load_db (save_user_record b rb (save_user_record a ra st).2).2).users k
        = aget (load_db st).users k) := by
  have e1 : save_user_record a ra st
      = (true, some { load_db st with users := aset (load_db st).users (toString a) ra }) := by
    unfold save_user_record
    exact save_db_true _ _ h1
  rw [e1] at h2 ⊢
  have e2 : save_user_record b rb
        (true, some { load_db st with users := aset (load_db st).users (toString a) ra }).2
      = (true, some { load_db st with
          users := aset (aset (load_db st).users (toString a) ra) (toString b) rb }) := by
    unfold save_user_record
    exact save_db_true _ _ h2
  rw [e2]
  refine ⟨?_, ?_, ?_⟩
  · show aget (aset (aset (load_db st).users (toString a) ra) (toString b) rb) (toString a) = some ra
    rw [aget_aset_ne _ _ _ _ (Ne.symm hk)]
    exact aget_aset_self _ _ _
  · exact aget_aset_self _ _ _
  · intro k hka hkb
    show aget (aset (aset (load_db st).users (toString a) ra) (toString b) rb) k
        = aget (load_db st).users k
    rw [aget_aset_ne _ _ _ _ (Ne.symm hkb), aget_aset_ne _ _ _ _ (Ne.symm hka)]

theorem addLike_matches (r : UserRec) (x : String) : (addLike r x).«matches» = r.«matches» := by
  unfold addLike
  split <;> rfl

theorem addLike_liked_by (r : UserRec) (x : String) : (addLike r x).liked_by = r.liked_by := by
  unfold addLike
  split <;> rfl

theorem addLike_likes (r : UserRec) (x : String) :
    (addLike r x).likes = (if x ∈ r.likes then r.likes else r.likes ++ [x]) := by
  unfold addLike
  by_cases hc : x ∈ r.likes <;> simp [hc]

theorem addLikedBy_matches (r : UserRec) (x : String) :
    (addLikedBy r x).«matches» = r.«matches» := by
  unfold addLikedBy
  split <;> rfl

theorem addLikedBy_likes (r : UserRec) (x : String) : (addLikedBy r x).likes = r.likes := by
  unfold addLikedBy
  split <;> rfl

theorem addLikedBy_liked_by (r : UserRec) (x : String) :
    (addLikedBy r x).liked_by = (if x ∈ r.liked_by then r.liked_by else r.liked_by ++ [x]) := by
  unfold addLikedBy
  by_cases hc : x ∈ r.liked_by <;> simp [hc]

theorem addMatch_mem (r : UserRec) (x : String) : x ∈ (addMatch r x).«matches» := by
  unfold addMatch
  split
  · assumption
  · simp

set_option maxHeartbeats 2000000 in
/-- Claim C4: for registered VIP users A and B (distinct ids, both present,
requester VIP), when A likes B and B likes already contains A, afterwards
A.matches contains B, B.matches contains A, and both users are notified (the
requester via the MATCH callback answer, the target via a direct message);
when B likes does not contain A, neither user matches set changes and only
the one-directional pair updates (B appended to A.likes unless already
there, A appended to B.liked_by unless already there), all other users
untouched.  The save results are assumed true (the size ceiling not hit), as
instrumented in `World.saveLog`. -/
theorem like_mutual_symmetry
    (w : World) (doc : Doc) (a b : Int) (recA recB : UserRec)
    (hw : w.store = some doc)
    (hk : toString a ≠ toString b)
    (ha : aget doc.users (toString a) = some recA)
    (hb : aget doc.users (toString b) = some recB)
    (hra : recA.registered = true) (hrb : recB.registered = true)
    (hva : recA.vip = true) (hvb : recB.vip = true)
    (hok : ∀ x ∈ (like_cb a b w).saveLog, x = true) :
    (toString a ∈ recB.likes →
      ∃ rA2 rB2,
        get_user_record a (like_cb a b w).store = some rA2 ∧
        get_user_record b (like_cb a b w).store = some rB2 ∧
        toString b ∈ rA2.«matches» ∧ toString a ∈ rB2.«matches» ∧
        Ev.answerCb "🎉 It\x27s a MATCH!" ∈ (like_cb a b w).events ∧
        (∃ t, Ev.sendMsg b t ∈ (like_cb a b w).events)) ∧
    (toString a ∉ recB.likes →
      ∃ rA2 rB2,
        get_user_record a (like_cb a b w).store = some rA2 ∧
        get_user_record b (like_cb a b w).store = some rB2 ∧
        rA2.«matches» = recA.«matches» ∧ rB2.«matches» = recB.«matches» ∧
        rA2.likes = (if toString b ∈ recA.likes then recA.likes else recA.likes ++ [toString b]) ∧
        rA2.liked_by = recA.liked_by ∧
        rB2.liked_by = (if toString a ∈ recB.liked_by then recB.liked_by
          else recB.liked_by ++ [toString a]) ∧
        rB2.likes = recB.likes ∧
        (∀ k, k ≠ toString a → k ≠ toString b →
          aget (load_db (like_cb a b w).store).users k = aget doc.users k)) := by
  have hme : get_user_record a w.store = some recA := by
    simp [get_user_record, load_db, hw, ha]
  have htgt : get_user_record b w.store = some recB := by
    simp [get_user_record, load_db, hw, hb]
  simp only [like_cb, hme, htgt] at hok ⊢
  rw [addLikedBy_likes] at hok ⊢
  simp only [hva, Bool.true_eq_false, if_false] at hok ⊢
  constructor
  · intro hm
    simp only [hm, if_true] at hok ⊢
    simp only [worldSave, emit] at hok ⊢
    obtain ⟨h1, h2⟩ := all_true_append2 hok
    have hd := double_save a b _ _ w.store hk h1 h2
    refine ⟨_, _, hd.1, hd.2.1, addMatch_mem _ _, addMatch_mem _ _, ?_, ?_⟩
    · simp
    · exact ⟨_, List.mem_append.mpr (Or.inl (List.mem_append.mpr
        (Or.inr (List.mem_singleton_self _))))⟩
  · intro hm
    simp only [hm, if_false] at hok ⊢
    simp only [worldSave, emit] at hok ⊢
    obtain ⟨h1, h2⟩ := all_true_append2 hok
    have hd := double_save a b _ _ w.store hk h1 h2
    refine ⟨_, _, hd.1, hd.2.1, addLike_matches _ _, addLikedBy_matches _ _,
      addLike_likes _ _, addLike_liked_by _ _, addLikedBy_liked_by _ _,
      addLikedBy_likes _ _, ?_⟩
    intro k hka hkb
    rw [hd.2.2 k hka hkb, hw]
    rfl

/-- Witness for C4: user 1 likes user 2 while user 2 already likes user 1 —
a mutual match with both notifications. -/
theorem like_mutual_symmetry_witness :
    ∃ rA2 rB2,
      get_user_record 1 (like_cb 1 2 wAB).store = some rA2 ∧
      get_user_record 2 (like_cb 1 2 wAB).store = some rB2 ∧
      toString (2 : Int) ∈ rA2.«matches» ∧ toString (1 : Int) ∈ rB2.«matches» ∧
      Ev.answerCb "🎉 It\x27s a MATCH!" ∈ (like_cb 1 2 wAB).events ∧
      (∃ t, Ev.sendMsg 2 t ∈ (like_cb 1 2 wAB).events) :=
  (like_mutual_symmetry wAB docAB 1 2 userA1 userB2 rfl (by decide) (by decide) (by decide)
    rfl rfl rfl rfl (by decide)).1 (by decide)

theorem candidatesOf_aset (selfKey pref : String) (users : List (String × UserRec)) (v : UserRec) :
    candidatesOf selfKey pref (aset users selfKey v) = candidatesOf selfKey pref users := by
  induction users with
  | nil => simp [aset, candidatesOf]
  | cons hd tl ih =>
    obtain ⟨k0, v0⟩ := hd
    by_cases h0 : k0 = selfKey
    · subst h0
      rw [show aset ((k0, v0) :: tl) k0 v = (k0, v) :: tl from by simp [aset]]
      simp [candidatesOf, List.filter_cons]
    · rw [show aset ((k0, v0) :: tl) selfKey v = (k0, v0) :: aset tl selfKey v from by
        simp [aset, h0]]
      simp only [candidatesOf, List.filter_cons] at ih ⊢
      rw [ih]

theorem menu_browse_cb_vip
    (a : Int) (users0 : List (String × UserRec)) (m0 : MetaInfo) (recA : UserRec)
    (hvip : recA.vip = true)
    (c : Nat) (w : World)
    (hw : w.store = some ⟨aset users0 (toString a) { recA with current_real_index := c }, m0⟩)
    (hN : 0 < (candidatesOf (toString a) (recA.interest.getD "both") users0).length) :
    ∃ ok : Bool,
      (menu_browse_cb a w).2
        = some (c % (candidatesOf (toString a) (recA.interest.getD "both") users0).length) ∧
      (menu_browse_cb a w).1.saveLog = w.saveLog ++ [ok] ∧
      (menu_browse_cb a w).1.store =
        (if ok then some ⟨aset users0 (toString a)
            { recA with current_real_index :=
                (c % (candidatesOf (toString a) (recA.interest.getD "both") users0).length + 1)
                  % (candidatesOf (toString a) (recA.interest.getD "both") users0).length }, m0⟩
         else w.store) := by
  have hget : get_user_record a w.store = some { recA with current_real_index := c } := by
    simp [get_user_record, load_db, hw]
  have hem : (candidatesOf (toString a) (recA.interest.getD "both") users0).isEmpty = false := by
    cases hcc : candidatesOf (toString a) (recA.interest.getD "both") users0 with
    | nil => rw [hcc] at hN; simp at hN
    | cons x xs => rfl
  simp only [menu_browse_cb, hget]
  simp only [hvip, if_true]
  simp only [worldSave, save_user_record]
  rw [hw]
  simp only [load_db, Option.getD_some]
  rw [candidatesOf_aset]
  simp only [hem, Bool.false_eq_true, if_false]
  rw [aset_aset]
  refine ⟨_, trivial, rfl, ?_⟩
  simp only [emit]
  rw [save_db_snd]

theorem menu_browse_saveLog_extends (a : Int) (w : World) :
    ∃ l, (menu_browse_cb a w).1.saveLog = w.saveLog ++ l := by
  unfold menu_browse_cb
  split
  · exact ⟨[], by simp⟩
  · split
    · dsimp only
      split
      · exact ⟨[], by simp⟩
      · exact ⟨_, rfl⟩
    · exact ⟨_, rfl⟩

theorem browse_run_saveLog_extends (a : Int) (n : Nat) :
    ∀ w : World, ∃ l, (browse_run a n w).1.saveLog = w.saveLog ++ l := by
  induction n with
  | zero => intro w; exact ⟨[], by simp [browse_run]⟩
  | succ m ih =>
    intro w
    obtain ⟨l1, h1⟩ := menu_browse_saveLog_extends a w
    obtain ⟨l2, h2⟩ := ih (menu_browse_cb a w).1
    refine ⟨l1 ++ l2, ?_⟩
    rw [show (browse_run a (m + 1) w).1 = (browse_run a m (menu_browse_cb a w).1).1 from rfl,
      h2, h1, List.append_assoc]

theorem cursor_mod_step (c k N : Nat) : ((c % N + 1) % N + k) % N = (c + (k + 1)) % N := by
  calc ((c % N + 1) % N + k) % N = (c % N + 1 + k) % N := Nat.mod_add_mod _ _ _
    _ = (c % N + (1 + k)) % N := by rw [Nat.add_assoc]
    _ = (c + (1 + k)) % N := Nat.mod_add_mod _ _ _
    _ = (c + (k + 1)) % N := by rw [Nat.add_comm 1 k]

theorem browse_run_vip
    (a : Int) (users0 : List (String × UserRec)) (m0 : MetaInfo) (recA : UserRec)
    (hvip : recA.vip = true)
    (hN : 0 < (candidatesOf (toString a) (recA.interest.getD "both") users0).length)
    (n : Nat) :
    ∀ (w : World) (c : Nat),
      w.store = some ⟨aset users0 (toString a) { recA with current_real_index := c }, m0⟩ →
      (∀ x ∈ (browse_run a n w).1.saveLog, x = true) →
      (browse_run a n w).2 = (List.range n).map
          (fun k => (c + k) % (candidatesOf (toString a) (recA.interest.getD "both") users0).length) ∧
      ∃ c2, c2 % (candidatesOf (toString a) (recA.interest.getD "both") users0).length
            = (c + n) % (candidatesOf (toString a) (recA.interest.getD "both") users0).length ∧
        (browse_run a n w).1.store
          = some ⟨aset users0 (toString a) { recA with current_real_index := c2 }, m0⟩ := by
  induction n with
  | zero =>
    intro w c hw hok
    exact ⟨by simp [browse_run], ⟨c, by rw [Nat.add_zero], hw⟩⟩
  | succ m ih =>
    intro w c hw hok
    obtain ⟨ok, hv, hsl, hst⟩ := menu_browse_cb_vip a users0 m0 recA hvip c w hw hN
    have hrun1 : (browse_run a (m + 1) w).1 = (browse_run a m (menu_browse_cb a w).1).1 := rfl
    have hokt : ok = true := by
      obtain ⟨l, hl⟩ := browse_run_saveLog_extends a m (menu_browse_cb a w).1
      apply hok
      rw [hrun1, hl, hsl]
      simp
    rw [hokt] at hst
    rw [if_pos rfl] at hst
    have hok2 : ∀ x ∈ (browse_run a m (menu_browse_cb a w).1).1.saveLog, x = true := by
      intro x hx
      exact hok x (by rw [hrun1]; exact hx)
    obtain ⟨hv2, c2, hc2, hst2⟩ := ih (menu_browse_cb a w).1
      ((c % (candidatesOf (toString a) (recA.interest.getD "both") users0).length + 1)
        % (candidatesOf (toString a) (recA.interest.getD "both") users0).length) hst hok2
    constructor
    · show (menu_browse_cb a w).2.toList ++ (browse_run a m (menu_browse_cb a w).1).2 = _
      rw [hv, hv2, List.range_succ_eq_map, List.map_cons, List.map_map, Option.toList_some,
        List.singleton_append]
      congr 1
      exact List.map_congr_left fun k _ => cursor_mod_step c k _
    · refine ⟨c2, ?_, hst2⟩
      rw [hc2, cursor_mod_step]

theorem visited_covers (v : List Nat) (N : Nat) (hnd : v.Nodup) (hlen : v.length = N)
    (hlt : ∀ x ∈ v, x < N) : ∀ i, i < N → i ∈ v := by
  have hsub : v.toFinset ⊆ Finset.range N := fun x hx =>
    Finset.mem_range.mpr (hlt x (List.mem_toFinset.mp hx))
  have hcard : (Finset.range N).card ≤ v.toFinset.card := by
    rw [List.toFinset_card_of_nodup hnd, hlen, Finset.card_range]
  have heq : v.toFinset = Finset.range N := Finset.eq_of_subset_of_card_le hsub hcard
  intro i hi
  have hm : i ∈ v.toFinset := by
    rw [heq]
    exact Finset.mem_range.mpr hi
  exact List.mem_toFinset.mp hm

theorem fakePoolOf_length_pos (pref : String) : 0 < (fakePoolOf pref).length := by
  unfold fakePoolOf
  split
  · decide
  · split <;> decide

theorem menu_browse_cb_nonvip
    (a : Int) (users0 : List (String × UserRec)) (m0 : MetaInfo) (recA : UserRec)
    (hvip : recA.vip = false)
    (c : Nat) (w : World)
    (hw : w.store = some ⟨aset users0 (toString a) { recA with current_fake_index := c }, m0⟩) :
    ∃ ok : Bool,
      (menu_browse_cb a w).2
        = some (c % (fakePoolOf (recA.interest.getD "both")).length) ∧
      (menu_browse_cb a w).1.saveLog = w.saveLog ++ [ok] ∧
      (menu_browse_cb a w).1.store =
        (if ok then some ⟨aset users0 (toString a)
            { recA with current_fake_index :=
                (c % (fakePoolOf (recA.interest.getD "both")).length + 1)
                  % (fakePoolOf (recA.interest.getD "both")).length }, m0⟩
         else w.store) := by
  have hget : get_user_record a w.store = some { recA with current_fake_index := c } := by
    simp [get_user_record, load_db, hw]
  simp only [menu_browse_cb, hget]
  simp only [hvip, Bool.false_eq_true, if_false]
  simp only [worldSave, save_user_record]
  rw [hw]
  simp only [load_db, Option.getD_some]
  rw [aset_aset]
  refine ⟨_, trivial, rfl, ?_⟩
  simp only [emit]
  rw [save_db_snd]

theorem browse_run_nonvip
    (a : Int) (users0 : List (String × UserRec)) (m0 : MetaInfo) (recA : UserRec)
    (hvip : recA.vip = false)
    (n : Nat) :
    ∀ (w : World) (c : Nat),
      w.store = some ⟨aset users0 (toString a) { recA with current_fake_index := c }, m0⟩ →
      (∀ x ∈ (browse_run a n w).1.saveLog, x = true) →
      (browse_run a n w).2 = (List.range n).map
          (fun k => (c + k) % (fakePoolOf (recA.interest.getD "both")).length) ∧
      ∃ c2, c2 % (fakePoolOf (recA.interest.getD "both")).length
            = (c + n) % (fakePoolOf (recA.interest.getD "both")).length ∧
        (browse_run a n w).1.store
          = some ⟨aset users0 (toString a) { recA with current_fake_index := c2 }, m0⟩ := by
  induction n with
  | zero =>
    intro w c hw hok
    exact ⟨by simp [browse_run], ⟨c, by rw [Nat.add_zero], hw⟩⟩
  | succ m ih =>
    intro w c hw hok
    obtain ⟨ok, hv, hsl, hst⟩ := menu_browse_cb_nonvip a users0 m0 recA hvip c w hw
    have hrun1 : (browse_run a (m + 1) w).1 = (browse_run a m (menu_browse_cb a w).1).1 := rfl
    have hokt : ok = true := by
      obtain ⟨l, hl⟩ := browse_run_saveLog_extends a m (menu_browse_cb a w).1
      apply hok
      rw [hrun1, hl, hsl]
      simp
    rw [hokt] at hst
    rw [if_pos rfl] at hst
    have hok2 : ∀ x ∈ (browse_run a m (menu_browse_cb a w).1).1.saveLog, x = true := by
      intro x hx
      exact hok x (by rw [hrun1]; exact hx)
    obtain ⟨hv2, c2, hc2, hst2⟩ := ih (menu_browse_cb a w).1
      ((c % (fakePoolOf (recA.interest.getD "both")).length + 1)
        % (fakePoolOf (recA.interest.getD "both")).length) hst hok2
    constructor
    · show (menu_browse_cb a w).2.toList ++ (browse_run a m (menu_browse_cb a w).1).2 = _
      rw [hv, hv2, List.range_succ_eq_map, List.map_cons, List.map_map, Option.toList_some,
        List.singleton_append]
      congr 1
      exact List.map_congr_left fun k _ => cursor_mod_step c k _
    · refine ⟨c2, ?_, hst2⟩
      rw [hc2, cursor_mod_step]

/-- Claim C5: for every registered requester and the fixed candidate pool of
size N their `menu_browse` calls traverse — the filtered real pool via
`current_real_index` for a VIP user, the static decoy pool via
`current_fake_index` for a non-VIP user — and any starting cursor, N
consecutive successful browse calls (which mutate only the requester's own
cursor, so the pool is fixed) visit each of the N pool indices exactly once:
the visited index list is duplicate-free, has length N, and contains every
index below N; and the cursor stored after the N calls is congruent modulo N
to its value before them. -/
theorem browse_round_robin
    (a : Int) (users0 : List (String × UserRec)) (m0 : MetaInfo) (recA : UserRec) (w : World)
    (hw : w.store = some ⟨users0, m0⟩)
    (ha : aget users0 (toString a) = some recA)
    (hN : 0 < browsePoolLen (toString a) recA users0)
    (hok : ∀ x ∈ (browse_run a (browsePoolLen (toString a) recA users0) w).1.saveLog,
      x = true) :
    (browse_run a (browsePoolLen (toString a) recA users0) w).2.Nodup ∧
    (browse_run a (browsePoolLen (toString a) recA users0) w).2.length
      = browsePoolLen (toString a) recA users0 ∧
    (∀ i, i < browsePoolLen (toString a) recA users0 →
      i ∈ (browse_run a (browsePoolLen (toString a) recA users0) w).2) ∧
    ∃ recA2,
      get_user_record a (browse_run a (browsePoolLen (toString a) recA users0) w).1.store
        = some recA2 ∧
      browseCursor recA2 % browsePoolLen (toString a) recA users0
        = browseCursor recA % browsePoolLen (toString a) recA users0 := by
  cases hv : recA.vip with
  | true =>
    simp only [browsePoolLen, hv, if_true] at hN hok ⊢
    have heta : { recA with current_real_index := recA.current_real_index } = recA := rfl
    have hw2 : w.store = some ⟨aset users0 (toString a)
        { recA with current_real_index := recA.current_real_index }, m0⟩ := by
      rw [heta, aset_eq_of_aget _ _ _ ha, hw]
    obtain ⟨hvis, c2, hc2, hst⟩ := browse_run_vip a users0 m0 recA hv hN
      ((candidatesOf (toString a) (recA.interest.getD "both") users0).length)
      w recA.current_real_index hw2 hok
    have hnd : (browse_run a
        ((candidatesOf (toString a) (recA.interest.getD "both") users0).length) w).2.Nodup := by
      rw [hvis]
      refine List.Nodup.map_on ?_ (List.nodup_range _)
      intro x hx y hy hxy
      rw [List.mem_range] at hx hy
      have hmeq : Nat.ModEq (candidatesOf (toString a) (recA.interest.getD "both") users0).length
          (recA.current_real_index + x) (recA.current_real_index + y) := hxy
      have h2 : x % (candidatesOf (toString a) (recA.interest.getD "both") users0).length
          = y % (candidatesOf (toString a) (recA.interest.getD "both") users0).length :=
        Nat.ModEq.add_left_cancel' _ hmeq
      rw [Nat.mod_eq_of_lt hx, Nat.mod_eq_of_lt hy] at h2
      exact h2
    have hlen : (browse_run a
        ((candidatesOf (toString a) (recA.interest.getD "both") users0).length) w).2.length
        = (candidatesOf (toString a) (recA.interest.getD "both") users0).length := by
      rw [hvis]
      simp
    have hlt : ∀ x ∈ (browse_run a
        ((candidatesOf (toString a) (recA.interest.getD "both") users0).length) w).2,
        x < (candidatesOf (toString a) (recA.interest.getD "both") users0).length := by
      rw [hvis]
      intro x hx
      simp only [List.mem_map] at hx
      obtain ⟨k, _, hk⟩ := hx
      rw [← hk]
      exact Nat.mod_lt _ hN
    refine ⟨hnd, hlen, visited_covers _ _ hnd hlen hlt, ?_⟩
    refine ⟨{ recA with current_real_index := c2 }, ?_, ?_⟩
    · rw [hst]
      simp [get_user_record, load_db]
    · simp only [browseCursor, hv, if_true]
      rw [hc2, Nat.add_mod_right]
  | false =>
    simp only [browsePoolLen, hv, Bool.false_eq_true, if_false] at hN hok ⊢
    have heta : { recA with current_fake_index := recA.current_fake_index } = recA := rfl
    have hw2 : w.store = some ⟨aset users0 (toString a)
        { recA with current_fake_index := recA.current_fake_index }, m0⟩ := by
      rw [heta, aset_eq_of_aget _ _ _ ha, hw]
    obtain ⟨hvis, c2, hc2, hst⟩ := browse_run_nonvip a users0 m0 recA hv
      ((fakePoolOf (recA.interest.getD "both")).length)
      w recA.current_fake_index hw2 hok
    have hnd : (browse_run a
        ((fakePoolOf (recA.interest.getD "both")).length) w).2.Nodup := by
      rw [hvis]
      refine List.Nodup.map_on ?_ (List.nodup_range _)
      intro x hx y hy hxy
      rw [List.mem_range] at hx hy
      have hmeq : Nat.ModEq (fakePoolOf (recA.interest.getD "both")).length
          (recA.current_fake_index + x) (recA.current_fake_index + y) := hxy
      have h2 : x % (fakePoolOf (recA.interest.getD "both")).length
          = y % (fakePoolOf (recA.interest.getD "both")).length :=
        Nat.ModEq.add_left_cancel' _ hmeq
      rw [Nat.mod_eq_of_lt hx, Nat.mod_eq_of_lt hy] at h2
      exact h2
    have hlen : (browse_run a
        ((fakePoolOf (recA.interest.getD "both")).length) w).2.length
        = (fakePoolOf (recA.interest.getD "both")).length := by
      rw [hvis]
      simp
    have hlt : ∀ x ∈ (browse_run a
        ((fakePoolOf (recA.interest.getD "both")).length) w).2,
        x < (fakePoolOf (recA.interest.getD "both")).length := by
      rw [hvis]
      intro x hx
      simp only [List.mem_map] at hx
      obtain ⟨k, _, hk⟩ := hx
      rw [← hk]
      exact Nat.mod_lt _ hN
    refine ⟨hnd, hlen, visited_covers _ _ hnd hlen hlt, ?_⟩
    refine ⟨{ recA with current_fake_index := c2 }, ?_, ?_⟩
    · rw [hst]
      simp [get_user_record, load_db]
    · simp only [browseCursor, hv, Bool.false_eq_true, if_false]
      rw [hc2, Nat.add_mod_right]

theorem browse_round_robin_witness :
    (browse_run 3 (browsePoolLen (toString (3 : Int)) userN3 docNV.users) wNV).2.Nodup ∧
    (browse_run 3 (browsePoolLen (toString (3 : Int)) userN3 docNV.users) wNV).2.length
      = browsePoolLen (toString (3 : Int)) userN3 docNV.users ∧
    (∀ i, i < browsePoolLen (toString (3 : Int)) userN3 docNV.users →
      i ∈ (browse_run 3 (browsePoolLen (toString (3 : Int)) userN3 docNV.users) wNV).2) ∧
    ∃ recA2,
      get_user_record 3 (browse_run 3
          (browsePoolLen (toString (3 : Int)) userN3 docNV.users) wNV).1.store = some recA2 ∧
      browseCursor recA2 % browsePoolLen (toString (3 : Int)) userN3 docNV.users
        = browseCursor userN3 % browsePoolLen (toString (3 : Int)) userN3 docNV.users :=
  browse_round_robin 3 docNV.users emptyMeta userN3 wNV rfl rfl (by decide) (by decide)
